import Mathlib

set_option linter.unusedVariables false
set_option allowUnsafeReducibility true
attribute [local semireducible] Rat.add Rat.sub Rat.mul

/-!
Shallow embedding of the kiro2api credential pool manager
(`src/auth/token_manager.go`, final variant, and the auth facade in
`src/unnamed/part_005`), together with theorems settling the frozen claims.

Modelling conventions:
* Go `time.Time` instants are `Int`; `time.Since(t)` is `now - t`,
  `time.Now().After(t)` is `now > t`, and durations (the cache TTL) are `Int`.
* Go `float64` quota amounts are `Rat`.  The arithmetic the code performs on
  them (subtraction, comparison with 0, decrement by 1) is exact on the
  rationals involved.
* Cache keys are `fmt.Sprintf("token_%d", index)`; the format is injective in
  the index, so keys are modelled directly as `Nat`.
* Go maps with absent-key defaults are total functions (`Nat → Option _` for
  the token cache, `Nat → Bool` for the `exhausted` / `refreshing` sets, where
  `delete` sets the flag to `false`).
* Network effects (token refresh, quota check) are oracle inputs
  (`RefreshResult`, `QuotaResult`).
-/

namespace Kiro

/-- One credential record (`AuthConfig` in `src/unnamed/part_005`). -/
structure AuthConfig where
  authType : String
  refreshToken : String
  clientID : String
  clientSecret : String
  disabled : Bool
deriving Repr, DecidableEq

/-- Constant `AuthMethodSocial`. -/
def AuthMethodSocial : String := "Social"

/-- Constant `AuthMethodIdC`. -/
def AuthMethodIdC : String := "IdC"

/-- Access token plus expiry (the fields of `types.TokenInfo` used by the
manager). -/
structure TokenInfo where
  accessToken : String
  expiresAt : Int
deriving Repr, DecidableEq

/-- Free-trial part of a usage breakdown (`types` package, as used by
`CalculateAvailableCount`). -/
structure FreeTrialInfo where
  freeTrialStatus : String
  usageLimitWithPrecision : Rat
  currentUsageWithPrecision : Rat
deriving Repr, DecidableEq

/-- One entry of the usage breakdown list. -/
structure UsageBreakdown where
  resourceType : String
  usageLimitWithPrecision : Rat
  currentUsageWithPrecision : Rat
  freeTrialInfo : Option FreeTrialInfo
deriving Repr, DecidableEq

/-- The quota snapshot returned by the quota inspector
(`types.UsageLimits`). -/
structure UsageLimits where
  usageBreakdownList : List UsageBreakdown
deriving Repr, DecidableEq

/-- A cached token entry (`CachedToken` in `token_manager.go`). -/
structure CachedToken where
  token : TokenInfo
  usageInfo : Option UsageLimits
  cachedAt : Int
  lastUsed : Int
  available : Rat
deriving Repr, DecidableEq

/-- Usability test `CachedToken.IsUsable`: the token is not past expiry and has a positive
remaining-available count (`token_manager.go:1379-1388`). -/
def CachedToken.IsUsable (ct : CachedToken) (now : Int) : Bool :=
  if now > ct.token.expiresAt then false
  else decide (ct.available > 0)

/-- Remaining free-trial amount of a breakdown: `limit - used` when the trial
exists and is `ACTIVE`, else zero.  This is both the contribution the loop in
`CalculateAvailableCount` adds (`token_manager.go:1443-1446`) and the spec's
"if a free-trial allocation exists and is in active status, its remaining
amount (limit minus used)". -/
def freeTrialRemaining (b : UsageBreakdown) : Rat :=
  match b.freeTrialInfo with
  | some ft =>
    if ft.freeTrialStatus = "ACTIVE" then
      ft.usageLimitWithPrecision - ft.currentUsageWithPrecision
    else 0
  | none => 0

/-- Value `CalculateAvailableCount` computes for a CREDIT breakdown
(`token_manager.go:1440-1455`): free-trial remaining plus base remaining,
clamped to 0 when negative. -/
def creditAvailable (b : UsageBreakdown) : Rat :=
  let totalAvailable :=
    freeTrialRemaining b + (b.usageLimitWithPrecision - b.currentUsageWithPrecision)
  if totalAvailable < 0 then 0 else totalAvailable

/-- Recursion over the breakdown list inside `CalculateAvailableCount`
(`token_manager.go:1438-1458`): the first CREDIT breakdown decides the
result; a list without a CREDIT breakdown yields `0`. -/
def calcAvailList : List UsageBreakdown → Rat
  | [] => 0
  | b :: rest =>
    if b.resourceType = "CREDIT" then creditAvailable b
    else calcAvailList rest

/-- Function `CalculateAvailableCount` (`token_manager.go:1436-1459`). -/
def CalculateAvailableCount (usage : UsageLimits) : Rat :=
  calcAvailList usage.usageBreakdownList

/-- The spec's description of `computeAvailable` (§4.3 of the spec, claim C9),
written from the spec's words for comparison with the source function: the
remaining amount of the credit-type resource, plus the active free-trial
remaining amount, floored at zero; zero when no credit-type resource
appears. -/
def computeAvailableSpec (usage : UsageLimits) : Rat :=
  match usage.usageBreakdownList.find? (fun b => decide (b.resourceType = "CREDIT")) with
  | none => 0
  | some b =>
    max 0 (freeTrialRemaining b + (b.usageLimitWithPrecision - b.currentUsageWithPrecision))

/-! Section: Pool manager state -/

/-- The token pool manager (`TokenManager` in `token_manager.go:947-955`).
The Go cache keys `"token_%d"` are modelled as the index itself; the
`exhausted` / `refreshing` string-keyed bool maps become total `Nat → Bool`
functions (an absent key reads `false`, `delete` writes `false`). -/
structure TokenManager where
  tokens : Nat → Option CachedToken
  ttl : Int
  configs : List AuthConfig
  configOrder : List Nat
  currentIndex : Nat
  exhausted : Nat → Bool
  refreshing : Nat → Bool

/-- Point update of the cache map. -/
def updCache (f : Nat → Option CachedToken) (k : Nat) (v : Option CachedToken) :
    Nat → Option CachedToken :=
  fun i => if i = k then v else f i

/-- Point update of a bool map (`exhausted` / `refreshing`). -/
def updFlag (f : Nat → Bool) (k : Nat) (v : Bool) : Nat → Bool :=
  fun i => if i = k then v else f i

/-- Function `generateConfigOrder` (`token_manager.go:1461-1476`): one key per config
index, in index order. -/
def generateConfigOrder (configs : List AuthConfig) : List Nat :=
  List.range configs.length

/-- Constructor `NewTokenManager` (`token_manager.go:981-1002`): empty cache, cursor 0,
empty exhausted and refreshing sets. -/
def NewTokenManager (configs : List AuthConfig) (ttl : Int) : TokenManager :=
  { tokens := fun _ => none
    ttl := ttl
    configs := configs
    configOrder := generateConfigOrder configs
    currentIndex := 0
    exhausted := fun _ => false
    refreshing := fun _ => false }

/-! Section: Refresh outcomes (oracle inputs for the network collaborators) -/

/-- Outcome of the quota inspector call `CheckUsageLimits`. -/
inductive QuotaResult where
  | checkFailed : QuotaResult
  | ok : UsageLimits → QuotaResult
deriving Repr, DecidableEq

/-- Outcome of one `refreshSingleToken` network exchange together with the
subsequent quota check. -/
inductive RefreshResult where
  | failed : RefreshResult
  | ok : TokenInfo → QuotaResult → RefreshResult
deriving Repr, DecidableEq

/-- Usage info recorded from a quota outcome (`usageInfo` stays `nil` when the
check fails, in both refresh paths). -/
def quotaUsageOf : QuotaResult → Option UsageLimits
  | .checkFailed => none
  | .ok usage => some usage

/-- Available count recorded by the asynchronous refresh path
(`token_manager.go:1237-1247`): when the quota check fails, `available`
keeps its zero initial value. -/
def asyncAvailableOf : QuotaResult → Rat
  | .checkFailed => 0
  | .ok usage => CalculateAvailableCount usage

/-- Available count recorded by the synchronous lazy refresh path
(`token_manager.go:1336-1345`): when the quota check fails, `available` is
set to `1`. -/
def syncAvailableOf : QuotaResult → Rat
  | .checkFailed => 1
  | .ok usage => CalculateAvailableCount usage

/-! Section: Asynchronous background refresh (`refreshSingleTokenAsync`,
`token_manager.go:1186-1264`)

The goroutine has three phases that touch the shared state at different
times: a validation read (under `RLock`, lines 1196-1225), the network
calls (no lock), and either the cache write plus deferred marker clear
(lines 1249-1259 and 1190-1194) or just the deferred marker clear.  The
pool can be mutated between the phases, so each phase is a separate
function of the state it observes. -/

/-- Deferred cleanup of `refreshSingleTokenAsync`
(`token_manager.go:1190-1194`): drop the in-flight marker. -/
def clearRefreshing (tm : TokenManager) (key : Nat) : TokenManager :=
  { tm with refreshing := updFlag tm.refreshing key false }

/-- Validation phase of `refreshSingleTokenAsync`
(`token_manager.go:1196-1225`): the index must still be in range and the
config currently at `index` must carry the same refresh material as the
snapshot `cfg`; otherwise the refresh is abandoned. -/
def asyncRefreshValid (tm : TokenManager) (index : Nat) (cfg : AuthConfig) : Bool :=
  if h : index < tm.configs.length then
    (tm.configs.get ⟨index, h⟩).refreshToken = cfg.refreshToken
  else false

/-- Post-network phase of `refreshSingleTokenAsync` applied to the state at
commit time: a failed exchange only clears the marker
(`token_manager.go:1228-1235`); a successful one overwrites the cache slot,
clears the exhaustion mark and clears the marker
(`token_manager.go:1249-1259`). -/
def asyncRefreshFinish (tm : TokenManager) (index : Nat) (r : RefreshResult)
    (now : Int) : TokenManager :=
  match r with
  | .failed => clearRefreshing tm index
  | .ok token q =>
    { tm with
      tokens := updCache tm.tokens index
        (some { token := token
                usageInfo := quotaUsageOf q
                cachedAt := now
                lastUsed := 0
                available := asyncAvailableOf q })
      exhausted := updFlag tm.exhausted index false
      refreshing := updFlag tm.refreshing index false }

/-- The whole async refresh run when no other thread touches the pool between
its phases: validate against `tm`, then finish against the same `tm`. -/
def asyncRefreshStep (tm : TokenManager) (index : Nat) (cfg : AuthConfig)
    (r : RefreshResult) (now : Int) : TokenManager :=
  if asyncRefreshValid tm index cfg then asyncRefreshFinish tm index r now
  else clearRefreshing tm index

/-! Section: Synchronous lazy refresh (`refreshSingleTokenSyncUnlock`,
`token_manager.go:1322-1377`)

The caller holds the lock and has set `refreshing[key]`; the method releases
the lock, performs the network calls, re-acquires the lock, clears the
marker and — on success — writes the cache slot for `key` unconditionally
(no identity re-validation).  `tm` is the pool state observed after
re-acquiring the lock. -/
def refreshSingleTokenSyncUnlock (tm : TokenManager) (index : Nat)
    (cfg : AuthConfig) (key : Nat) (r : RefreshResult) (now : Int) :
    Option CachedToken × TokenManager :=
  let tm1 := clearRefreshing tm key
  match r with
  | .failed => (none, tm1)
  | .ok token q =>
    let cached : CachedToken :=
      { token := token
        usageInfo := quotaUsageOf q
        cachedAt := now
        lastUsed := 0
        available := syncAvailableOf q }
    (some cached,
     { tm1 with
       tokens := updCache tm1.tokens key (some cached)
       exhausted := updFlag tm1.exhausted key false })

/-! Section: Selection (`selectBestTokenUnlocked`, `token_manager.go:1063-1160`)

The loop is embedded as a per-iteration body (`selectIter`) driven by a fuel
counter (the Go loop runs at most `len(configOrder)` attempts).  The
iteration returns either the key of the selected cache entry or the state to
continue from.  Launched background refresh goroutines are recorded by
config index in a `launched` list; in this single-threaded run they do not
execute. -/

/-- Function `triggerAsyncRefreshUnlocked` (`token_manager.go:1164-1183`): no-op when
the index is out of range or the config is disabled; otherwise set the
in-flight marker and launch the background refresh goroutine. -/
def triggerAsyncRefreshUnlocked (tm : TokenManager) (index : Nat) (key : Nat) :
    TokenManager × List Nat :=
  if h : index < tm.configs.length then
    if (tm.configs.get ⟨index, h⟩).disabled then (tm, [])
    else ({ tm with refreshing := updFlag tm.refreshing key true }, [index])
  else (tm, [])

/-- Cursor advance `(currentIndex + 1) % len(configOrder)`
(`token_manager.go:1147`). -/
def advanceCursor (tm : TokenManager) : TokenManager :=
  { tm with currentIndex := (tm.currentIndex + 1) % tm.configOrder.length }

/-- Mark the current key exhausted and advance the cursor
(`token_manager.go:1145-1147`). -/
def exhaustAdvance (tm : TokenManager) (key : Nat) : TokenManager :=
  advanceCursor { tm with exhausted := updFlag tm.exhausted key true }

/-- Outcome of one iteration of the selection loop: either return the entry
cached under `key`, or continue with the updated state. -/
inductive IterOut where
  | ret (key : Nat) (tm : TokenManager) (launched : List Nat)
  | next (tm : TokenManager) (launched : List Nat)

/-- One iteration of the selection loop (`token_manager.go:1072-1152`):
fresh-and-usable entries are returned in place; expired-but-usable entries
are returned after firing a background refresh (stale-while-revalidate);
expired-unusable or missing entries cause a synchronous lazy refresh (unless
the position is out of range, disabled, or already refreshing), whose usable
result is returned; otherwise the key is marked exhausted and the cursor
advances. -/
def selectIter (tm : TokenManager) (now : Int) (oracle : Nat → RefreshResult) :
    IterOut :=
  match tm.configOrder.get? tm.currentIndex with
  | none =>
    -- Unreachable under the cursor invariant (the Go code would panic on an
    -- out-of-range `configOrder[currentIndex]`).
    .next (advanceCursor tm) []
  | some key =>
    let idx := tm.currentIndex
    match tm.tokens key with
    | some cached =>
      if now - cached.cachedAt > tm.ttl then
        if cached.IsUsable now then
          if tm.refreshing key then .ret key tm []
          else
            let p := triggerAsyncRefreshUnlocked tm idx key
            .ret key p.1 p.2
        else
          if h : idx < tm.configs.length then
            if (tm.configs.get ⟨idx, h⟩).disabled then .next (exhaustAdvance tm key) []
            else if tm.refreshing key then .next (advanceCursor tm) []
            else
              let cfg := tm.configs.get ⟨idx, h⟩
              let tm1 := { tm with refreshing := updFlag tm.refreshing key true }
              let p := refreshSingleTokenSyncUnlock tm1 idx cfg key (oracle idx) now
              match p.1 with
              | some refreshed =>
                if refreshed.IsUsable now then .ret key p.2 []
                else .next (exhaustAdvance p.2 key) []
              | none => .next (exhaustAdvance p.2 key) []
          else .next (exhaustAdvance tm key) []
      else
        if cached.IsUsable now then .ret key tm []
        else .next (exhaustAdvance tm key) []
    | none =>
      if h : idx < tm.configs.length then
        if (tm.configs.get ⟨idx, h⟩).disabled then .next (exhaustAdvance tm key) []
        else if tm.refreshing key then .next (advanceCursor tm) []
        else
          let cfg := tm.configs.get ⟨idx, h⟩
          let tm1 := { tm with refreshing := updFlag tm.refreshing key true }
          let p := refreshSingleTokenSyncUnlock tm1 idx cfg key (oracle idx) now
          match p.1 with
          | some refreshed =>
            if refreshed.IsUsable now then .ret key p.2 []
            else .next (exhaustAdvance p.2 key) []
          | none => .next (exhaustAdvance p.2 key) []
      else .next (exhaustAdvance tm key) []

/-- Result of a full selection run: selected cache key (if any), final pool
state, and the config indices whose background refresh goroutines were
launched during the run. -/
structure SelectResult where
  selected : Option Nat
  tm : TokenManager
  launched : List Nat

/-- The selection loop with an attempt budget (`for attempts := 0; attempts <
len(tm.configOrder); attempts++`, `token_manager.go:1072`). -/
def selectLoop (now : Int) (oracle : Nat → RefreshResult) :
    Nat → TokenManager → List Nat → SelectResult
  | 0, tm, launched => ⟨none, tm, launched⟩
  | fuel + 1, tm, launched =>
    match selectIter tm now oracle with
    | .ret key tm' l => ⟨some key, tm', launched ++ l⟩
    | .next tm' l => selectLoop now oracle fuel tm' (launched ++ l)

/-- Function `selectBestTokenUnlocked` (`token_manager.go:1063-1160`). -/
def selectBestTokenUnlocked (tm : TokenManager) (now : Int)
    (oracle : Nat → RefreshResult) : SelectResult :=
  if tm.configOrder.length = 0 then ⟨none, tm, []⟩
  else selectLoop now oracle tm.configOrder.length tm []

/-- Dispensing bookkeeping in `getBestToken` (`token_manager.go:1016-1020`):
the selected cache entry (returned by pointer in Go) gets `lastUsed := now`
and its `available` decremented when positive. -/
def dispense (tm : TokenManager) (key : Nat) (now : Int) : TokenManager :=
  match tm.tokens key with
  | none => tm
  | some ct =>
    { tm with
      tokens := updCache tm.tokens key
        (some { ct with
                lastUsed := now
                available := if ct.available > 0 then ct.available - 1 else ct.available }) }

/-- Function `getBestToken` (`token_manager.go:1006-1023`): select, then update
last-used time and decrement the available count of the selected entry;
`none` models the "没有可用的token" error. -/
def getBestToken (tm : TokenManager) (now : Int) (oracle : Nat → RefreshResult) :
    Option TokenInfo × TokenManager :=
  let r := selectBestTokenUnlocked tm now oracle
  match r.selected with
  | none => (none, r.tm)
  | some key => ((r.tm.tokens key).map (fun ct => ct.token), dispense r.tm key now)

/-! Section: Pool mutation -/

/-- Method `TokenManager.AddConfig` (`token_manager.go:1479-1499`): append the
config and its order key; when enabled, launch a background refresh for the
new index (returned in the launch list; note no in-flight marker is set). -/
def TokenManager.AddConfig (tm : TokenManager) (cfg : AuthConfig) :
    TokenManager × List Nat :=
  let newConfigs := tm.configs ++ [cfg]
  let newIndex := newConfigs.length - 1
  ({ tm with configs := newConfigs, configOrder := tm.configOrder ++ [newIndex] },
   if cfg.disabled then [] else [newIndex])

/-- Method `TokenManager.RemoveConfig` (`token_manager.go:1503-1560`): fails on an
out-of-range index; otherwise removes the config, drops the removed key's
cache entry and exhaustion mark, re-keys every surviving entry and mark from
its old index (`i` below the removal point, `i+1` at or above it), rebuilds
the order, and resets the cursor to 0 when it falls past the shortened list.
The `refreshing` map is left untouched. -/
def TokenManager.RemoveConfig (tm : TokenManager) (index : Int) :
    Except String TokenManager :=
  if index < 0 ∨ (tm.configs.length : Int) ≤ index then .error "invalid index"
  else
    let k := index.toNat
    let newConfigs := tm.configs.take k ++ tm.configs.drop (k + 1)
    let tokens1 := updCache tm.tokens k none
    let exhausted1 := updFlag tm.exhausted k false
    let newLen := newConfigs.length
    .ok { tm with
      configs := newConfigs
      tokens := fun i => if i < newLen then tokens1 (if k ≤ i then i + 1 else i) else none
      exhausted := fun i => if i < newLen then exhausted1 (if k ≤ i then i + 1 else i) else false
      configOrder := List.range newLen
      currentIndex := if newLen ≤ tm.currentIndex then 0 else tm.currentIndex }

/-! Section: Refresh launch coordination (claim C6)

A small transition system over the in-flight marker map and the number of
outstanding refresh goroutines per position.  Each step mirrors one code
path that launches or finishes a refresh; the cache contents are irrelevant
to the coordination invariant and are omitted. -/

/-- Coordination state: the pool's config list, the `refreshing` marker map,
and how many refresh goroutines are currently outstanding per position. -/
structure RefreshSys where
  configs : List AuthConfig
  refreshing : Nat → Bool
  outstanding : Nat → Nat

/-- A selection-path launch: the caller tests `!tm.refreshing[key]` under the
lock (`token_manager.go:1086`, `1098`, `1128`) and then
`triggerAsyncRefreshUnlocked` (`token_manager.go:1164-1183`) re-checks
bounds and the disabled flag, sets the marker and spawns the goroutine. -/
def triggerStep (s : RefreshSys) (k : Nat) : RefreshSys :=
  if s.refreshing k then s
  else if h : k < s.configs.length then
    if (s.configs.get ⟨k, h⟩).disabled then s
    else
      { s with
        refreshing := updFlag s.refreshing k true
        outstanding := fun i => if i = k then s.outstanding i + 1 else s.outstanding i }
  else s

/-- Completion of one outstanding refresh goroutine: the deferred handler of
`refreshSingleTokenAsync` (`token_manager.go:1190-1194`) deletes the marker
whatever the outcome was. -/
def completeStep (s : RefreshSys) (k : Nat) : RefreshSys :=
  if s.outstanding k = 0 then s
  else
    { s with
      refreshing := updFlag s.refreshing k false
      outstanding := fun i => if i = k then s.outstanding i - 1 else s.outstanding i }

/-- A manual launch through `RefreshSingleTokenByIndex`
(`token_manager.go:1563-1584`): only bounds and the disabled flag are
checked; the goroutine is spawned without consulting or setting the
in-flight marker.  (`AddConfig`, `token_manager.go:1492-1494`, and
`RefreshAllTokens`, `token_manager.go:1646`, spawn the same goroutine in the
same marker-less way.) -/
def manualStep (s : RefreshSys) (k : Nat) : RefreshSys :=
  if h : k < s.configs.length then
    if (s.configs.get ⟨k, h⟩).disabled then s
    else { s with outstanding := fun i => if i = k then s.outstanding i + 1 else s.outstanding i }
  else s

/-- The coordination invariant claimed for the in-flight set: at most one
refresh outstanding per position, and an outstanding refresh holds the
marker for its position. -/
def RefreshInv (s : RefreshSys) : Prop :=
  ∀ k, s.outstanding k ≤ 1 ∧ (s.outstanding k = 1 → s.refreshing k = true)

/-! Section: Auth facade (`AuthService`, `src/unnamed/part_005:9-157`)

Persistence (`SaveConfigs`) is an external file-system effect, modelled by a
boolean oracle `saveOk` applied to the configs being saved. -/

/-- The facade: the pool manager plus the parallel config list kept for
persistence. -/
structure AuthService where
  tokenManager : TokenManager
  configs : List AuthConfig

/-- Defaulting of the auth method in the facade's `AddConfig`
(`part_005:83-85`): an empty auth type becomes `Social`. -/
def normalizeAuthType (cfg : AuthConfig) : AuthConfig :=
  if cfg.authType = "" then { cfg with authType := AuthMethodSocial } else cfg

/-- Method `AuthService.AddConfig` (`part_005:79-116`): validate, append to the
in-memory list and the pool manager, then persist; when persisting fails the
configs list is restored and the pool manager is rebuilt from the old
configs before the error is returned. -/
def AuthService.AddConfig (as : AuthService) (cfg : AuthConfig)
    (saveOk : List AuthConfig → Bool) (ttl : Int) : AuthService × Option String :=
  if cfg.refreshToken = "" then (as, some "RefreshToken must not be empty")
  else
    let cfg1 := normalizeAuthType cfg
    if cfg1.authType = AuthMethodIdC ∧ (cfg1.clientID = "" ∨ cfg1.clientSecret = "") then
      (as, some "IdC auth requires ClientID and ClientSecret")
    else
      let oldConfigs := as.configs
      let newConfigs := as.configs ++ [cfg1]
      let tmNew := (as.tokenManager.AddConfig cfg1).1
      if saveOk newConfigs then ({ tokenManager := tmNew, configs := newConfigs }, none)
      else
        ({ tokenManager := NewTokenManager oldConfigs ttl, configs := oldConfigs },
         some "save configs failed")

/-- Method `AuthService.RemoveConfig` (`part_005:119-157`): validate the index,
remove from the in-memory list, forward to the pool manager (restoring the
list when that fails), then persist; when persisting fails the configs list
is restored and the pool manager is rebuilt from the old configs before the
error is returned. -/
def AuthService.RemoveConfig (as : AuthService) (index : Int)
    (saveOk : List AuthConfig → Bool) (ttl : Int) : AuthService × Option String :=
  if index < 0 ∨ (as.configs.length : Int) ≤ index then (as, some "invalid index")
  else
    let oldConfigs := as.configs
    let k := index.toNat
    let newConfigs := as.configs.take k ++ as.configs.drop (k + 1)
    match as.tokenManager.RemoveConfig index with
    | .error _ =>
      ({ tokenManager := as.tokenManager, configs := oldConfigs }, some "pool removal failed")
    | .ok tm' =>
      if saveOk newConfigs then ({ tokenManager := tm', configs := newConfigs }, none)
      else
        ({ tokenManager := NewTokenManager oldConfigs ttl, configs := oldConfigs },
         some "save configs failed")

/-! Section: JSON configuration parsing (`parseJSONConfig`, `part_005:392-406`)

The input is the parsed JSON document; `decodeConfigArray` and
`decodeAuthConfig` model Go's `encoding/json` unmarshalling of that document
into `[]AuthConfig` and `AuthConfig` respectively (absent or `null` fields
take the zero value, mistyped fields fail, unknown fields are ignored, a
JSON `null` unmarshals into the zero value without error). -/

/-- A parsed JSON document. -/
inductive Json where
  | null : Json
  | bool : Bool → Json
  | num : Rat → Json
  | str : String → Json
  | arr : List Json → Json
  | obj : List (String × Json) → Json

/-- First field of an object with the given name. -/
def jsonField (fields : List (String × Json)) (name : String) : Option Json :=
  (fields.find? (fun p => decide (p.1 = name))).map (fun p => p.2)

/-- Unmarshal a string-typed struct field: absent or `null` gives `""`, a
string gives its value, any other shape is a type error. -/
def decodeStringField (fields : List (String × Json)) (name : String) : Option String :=
  match jsonField fields name with
  | none => some ""
  | some .null => some ""
  | some (.str s) => some s
  | some _ => none

/-- Unmarshal a bool-typed struct field. -/
def decodeBoolField (fields : List (String × Json)) (name : String) : Option Bool :=
  match jsonField fields name with
  | none => some false
  | some .null => some false
  | some (.bool b) => some b
  | some _ => none

/-- Unmarshal one `AuthConfig` record (the struct tags are `auth`,
`refreshToken`, `clientId`, `clientSecret`, `disabled`,
`part_005:181-187`). -/
def decodeAuthConfig : Json → Option AuthConfig
  | .obj fields => do
    let authType ← decodeStringField fields "auth"
    let refreshToken ← decodeStringField fields "refreshToken"
    let clientID ← decodeStringField fields "clientId"
    let clientSecret ← decodeStringField fields "clientSecret"
    let disabled ← decodeBoolField fields "disabled"
    pure { authType := authType, refreshToken := refreshToken, clientID := clientID,
           clientSecret := clientSecret, disabled := disabled }
  | .null =>
    some { authType := "", refreshToken := "", clientID := "", clientSecret := "",
           disabled := false }
  | _ => none

/-- Unmarshal every element of an array. -/
def decodeConfigList : List Json → Option (List AuthConfig)
  | [] => some []
  | j :: rest => do
    let c ← decodeAuthConfig j
    let cs ← decodeConfigList rest
    pure (c :: cs)

/-- Unmarshal a document into `[]AuthConfig`. -/
def decodeConfigArray : Json → Option (List AuthConfig)
  | .arr xs => decodeConfigList xs
  | .null => some []
  | _ => none

/-- Function `parseJSONConfig` (`part_005:392-406`): try the document as an array of
records; when that fails, try it as a single record wrapped into a
one-element list; error only when both fail. -/
def parseJSONConfig (j : Json) : Except String (List AuthConfig) :=
  match decodeConfigArray j with
  | some configs => .ok configs
  | none =>
    match decodeAuthConfig j with
    | some single => .ok [single]
    | none => .error "invalid JSON format"

/-! Section: Concrete fixtures used by counterexamples and witnesses -/

/-- An enabled social credential. -/
def cfgA : AuthConfig :=
  { authType := "Social", refreshToken := "refresh-A", clientID := "", clientSecret := "",
    disabled := false }

/-- A second enabled social credential with different refresh material. -/
def cfgB : AuthConfig :=
  { authType := "Social", refreshToken := "refresh-B", clientID := "", clientSecret := "",
    disabled := false }

/-- A third enabled social credential. -/
def cfgC : AuthConfig :=
  { authType := "Social", refreshToken := "refresh-C", clientID := "", clientSecret := "",
    disabled := false }

/-- Credential `cfgA` with the enabled flag turned off. -/
def cfgADisabled : AuthConfig := { cfgA with disabled := true }

/-- A cache entry bearing the given token string and available count, cached
at instant 0 with expiry 1000. -/
def mkEntry (tok : String) (avail : Rat) : CachedToken :=
  { token := { accessToken := tok, expiresAt := 1000 }, usageInfo := none,
    cachedAt := 0, lastUsed := 0, available := avail }

/-- Oracle under which every refresh network call fails. -/
def oracleNone : Nat → RefreshResult := fun _ => .failed

/-- Unwrap a successful `RemoveConfig`, keeping the old state on error. -/
def removeOrSelf (tm : TokenManager) (index : Int) : TokenManager :=
  match tm.RemoveConfig index with
  | .ok tm' => tm'
  | .error _ => tm

/-- A concrete single-record document. -/
def sampleObjFields : List (String × Json) :=
  [("auth", Json.str "Social"), ("refreshToken", Json.str "tok-1")]

/-- The record `sampleObjFields` decodes to. -/
def sampleCfg : AuthConfig :=
  { authType := "Social", refreshToken := "tok-1", clientID := "", clientSecret := "",
    disabled := false }

/-! Section: Claim C1 -/

/-- Initial pool with credentials A and B. -/
def c1tm0 : TokenManager := NewTokenManager [cfgA, cfgB] 300

/-- A synchronous lazy refresh for position 0 (snapshot `cfgA`) is in
flight: the selection path has set the in-flight marker
(`token_manager.go:1103`/`1133`) and released the lock for the network
call. -/
def c1tm1 : TokenManager := { c1tm0 with refreshing := updFlag c1tm0.refreshing 0 true }

/-- While the lock is released, a concurrent `RemoveConfig 0` deletes
credential A; credential B shifts into position 0. -/
def c1tm2 : TokenManager := removeOrSelf c1tm1 0

/-- The refresh for credential A then completes and commits against the
mutated pool. -/
def c1tm3 : TokenManager :=
  (refreshSingleTokenSyncUnlock c1tm2 0 cfgA 0
    (.ok { accessToken := "access-A-new", expiresAt := 1000 } .checkFailed) 50).2

/-- A coordination state satisfying the invariant: one enabled config,
nothing outstanding. -/
def c6ws : RefreshSys :=
  { configs := [cfgA], refreshing := fun _ => false, outstanding := fun _ => 0 }

/-! Section: Claim C3 -/

/-- Pool with two credentials and an in-flight refresh marker set for
position 1. -/
def c3cextm : TokenManager :=
  { NewTokenManager [cfgA, cfgB] 300 with refreshing := updFlag (fun _ => false) 1 true }

/-- Three-credential pool with cache entries at positions 0, 1 and 2 (the
spec's removal scenario). -/
def c3wtm : TokenManager :=
  { tokens := fun i =>
      if i = 0 then some (mkEntry "t0" 1)
      else if i = 1 then some (mkEntry "t1" 2)
      else if i = 2 then some (mkEntry "t2" 3)
      else none
    ttl := 300
    configs := [cfgA, cfgB, cfgC]
    configOrder := [0, 1, 2]
    currentIndex := 0
    exhausted := fun _ => false
    refreshing := fun _ => false }

/-! Section: Claim C2 -/

/-- Two-credential pool; both positions hold fresh, usable entries with
ample availability. -/
def c2tm : TokenManager :=
  { tokens := fun i =>
      if i = 0 then some (mkEntry "tok-A" 5)
      else if i = 1 then some (mkEntry "tok-B" 5)
      else none
    ttl := 300
    configs := [cfgA, cfgB]
    configOrder := [0, 1]
    currentIndex := 0
    exhausted := fun _ => false
    refreshing := fun _ => false }

/-- Pool state after the first acquire on `c2tm`. -/
def c2tmAfter : TokenManager := (getBestToken c2tm 10 oracleNone).2

/-! Section: Claim C4 -/

/-- Pool whose single position holds a fresh entry with fractional
availability one half. -/
def c4tm : TokenManager :=
  { tokens := fun i => if i = 0 then some (mkEntry "tok-H" (mkRat 1 2)) else none
    ttl := 300
    configs := [cfgA]
    configOrder := [0]
    currentIndex := 0
    exhausted := fun _ => false
    refreshing := fun _ => false }

/-! Section: Claim C5 -/

/-- Final pool state of a selection-iteration outcome. -/
def IterOut.outTm : IterOut → TokenManager
  | .ret _ tm _ => tm
  | .next tm _ => tm

/-- Launched refreshes of a selection-iteration outcome. -/
def IterOut.outLaunched : IterOut → List Nat
  | .ret _ _ l => l
  | .next _ l => l

/-- Key returned by a selection-iteration outcome, if any. -/
def IterOut.retKey : IterOut → Option Nat
  | .ret k _ _ => some k
  | .next _ _ => none

/-- Single-credential pool whose config is disabled while a fresh usable
cache entry exists at its position. -/
def c5tm : TokenManager :=
  { tokens := fun i => if i = 0 then some (mkEntry "tok-D" 3) else none
    ttl := 300
    configs := [cfgADisabled]
    configOrder := [0]
    currentIndex := 0
    exhausted := fun _ => false
    refreshing := fun _ => false }

/-- A one-credential facade state for the rollback witness. -/
def c8as : AuthService :=
  { tokenManager := NewTokenManager [cfgA] 300, configs := [cfgA] }

/-- A persistence oracle that always fails. -/
def saveFail : List AuthConfig → Bool := fun _ => false

/-! Section: Theorems settling the claims -/

theorem creditAvailable_eq_max (b : UsageBreakdown) :
    creditAvailable b =
      max 0 (freeTrialRemaining b +
        (b.usageLimitWithPrecision - b.currentUsageWithPrecision)) := by
  simp only [creditAvailable]
  rcases lt_or_le
      (freeTrialRemaining b + (b.usageLimitWithPrecision - b.currentUsageWithPrecision)) 0
      with h | h
  · rw [if_pos h, max_eq_left (le_of_lt h)]
  · rw [if_neg (not_lt.mpr h), max_eq_right h]

theorem calcAvailList_nonneg (l : List UsageBreakdown) : 0 ≤ calcAvailList l := by
  induction l with
  | nil => simp [calcAvailList]
  | cons b rest ih =>
    by_cases hb : b.resourceType = "CREDIT"
    · simp only [calcAvailList, hb, if_true, creditAvailable_eq_max]
      exact le_max_left _ _
    · simpa only [calcAvailList, hb, if_false] using ih

theorem calcAvailList_eq_spec (l : List UsageBreakdown) :
    calcAvailList l =
      (match l.find? (fun b => decide (b.resourceType = "CREDIT")) with
       | none => 0
       | some b =>
         max 0 (freeTrialRemaining b +
           (b.usageLimitWithPrecision - b.currentUsageWithPrecision))) := by
  induction l with
  | nil => simp [calcAvailList]
  | cons b rest ih =>
    by_cases hb : b.resourceType = "CREDIT"
    · rw [List.find?_cons_of_pos _ (by simpa using hb)]
      simp only [calcAvailList, hb, if_true]
      exact creditAvailable_eq_max b
    · rw [List.find?_cons_of_neg _ (by simpa using hb)]
      simpa only [calcAvailList, hb, if_false] using ih

/-- C9: `CalculateAvailableCount` is non-negative and agrees with the spec's
`computeAvailable` contract: the first credit-type breakdown's base remaining
amount, plus its active free-trial remaining amount, floored at zero; zero
when no credit-type resource is present. -/
theorem c9_computeAvailable (usage : UsageLimits) :
    0 ≤ CalculateAvailableCount usage ∧
    CalculateAvailableCount usage = computeAvailableSpec usage := by
  refine ⟨calcAvailList_nonneg _, ?_⟩
  unfold CalculateAvailableCount computeAvailableSpec
  exact calcAvailList_eq_spec usage.usageBreakdownList

/-! Section: Claim C7 -/

/-- C7: when the quota check fails after a successful token exchange, the
asynchronous background-refresh path caches the entry with zero
availability, while the synchronous lazy-refresh path caches it with exactly
one unit — the fallback depends on which refresh strategy handled the
call, exactly as the program is written. -/
theorem c7_quota_fallback :
    (∀ (tm : TokenManager) (index : Nat) (token : TokenInfo) (now : Int),
      ((asyncRefreshFinish tm index (.ok token .checkFailed) now).tokens index).map
        (fun ct => ct.available) = some 0) ∧
    (∀ (tm : TokenManager) (index key : Nat) (cfg : AuthConfig) (token : TokenInfo) (now : Int),
      (((refreshSingleTokenSyncUnlock tm index cfg key (.ok token .checkFailed) now).2).tokens
          key).map (fun ct => ct.available) = some 1) := by
  constructor
  · intro tm index token now
    simp [asyncRefreshFinish, updCache, asyncAvailableOf]
  · intro tm index key cfg token now
    simp [refreshSingleTokenSyncUnlock, clearRefreshing, updCache, syncAvailableOf]

/-! Section: Claim C10 -/

/-- C10: the configuration parser accepts a JSON array of records, and also a
single record object which it wraps into a one-element list; it errors
exactly when the document unmarshals as neither. -/
theorem c10_parse_config :
    (∀ (fields : List (String × Json)) (c : AuthConfig),
      decodeAuthConfig (Json.obj fields) = some c →
      parseJSONConfig (Json.obj fields) = .ok [c]) ∧
    (∀ j : Json, (parseJSONConfig j).isOk = false ↔
      (decodeConfigArray j = none ∧ decodeAuthConfig j = none)) := by
  constructor
  · intro fields c h
    simp [parseJSONConfig, decodeConfigArray, h]
  · intro j
    unfold parseJSONConfig
    rcases h1 : decodeConfigArray j with _ | cs
    · rcases h2 : decodeAuthConfig j with _ | c <;> simp [Except.isOk, Except.toBool]
    · simp [Except.isOk, Except.toBool]

/-- Witness for C10: a concrete single JSON object parses to the one-element
list of its record. -/
theorem c10_parse_config_witness :
    decodeAuthConfig (Json.obj sampleObjFields) = some sampleCfg ∧
    parseJSONConfig (Json.obj sampleObjFields) = .ok [sampleCfg] :=
  ⟨rfl, c10_parse_config.1 sampleObjFields sampleCfg rfl⟩

/-- C1 counterexample: the synchronous lazy-refresh path performs no
re-validation at completion.  A refresh started for position 0 with
credential A completes after A was removed, and its result is written into
the cache slot for position 0 — which credential B now occupies — instead
of being discarded.  This falsifies the claim for the synchronous refresh
path ("every refresh path that writes the cache"). -/
theorem c1_identity_safety_cex :
    (c1tm1.RemoveConfig 0).isOk = true ∧
    c1tm3.configs = [cfgB] ∧
    (c1tm3.tokens 0).map (fun ct => ct.token.accessToken) = some "access-A-new" ∧
    cfgB.refreshToken ≠ cfgA.refreshToken := by
  refine ⟨by decide, by decide, by decide, by decide⟩

/-- C1 (amended): the asynchronous background-refresh path validates, under a
read lock taken before the network exchange, that position `k` still holds a
config with the snapshot's refresh material, and when that validation fails
the refresh is discarded — the cache and exhaustion map are untouched and
only the in-flight marker for `k` is cleared.  Mutations occurring after
that validation are not re-checked at write time, and the synchronous
lazy-refresh path performs no validation at all: on a successful exchange it
writes the refreshed token into the slot for its key unconditionally. -/
theorem c1_identity_safety_amended :
    (∀ (tm : TokenManager) (index : Nat) (cfg : AuthConfig) (r : RefreshResult) (now : Int),
      asyncRefreshValid tm index cfg = false →
      (asyncRefreshStep tm index cfg r now).tokens = tm.tokens ∧
      (asyncRefreshStep tm index cfg r now).exhausted = tm.exhausted ∧
      (asyncRefreshStep tm index cfg r now).refreshing index = false) ∧
    (∀ (tm : TokenManager) (index key : Nat) (cfg : AuthConfig) (token : TokenInfo)
        (q : QuotaResult) (now : Int),
      ((refreshSingleTokenSyncUnlock tm index cfg key (.ok token q) now).2.tokens key).map
        (fun ct => ct.token) = some token) := by
  constructor
  · intro tm index cfg r now h
    refine ⟨?_, ?_, ?_⟩ <;> simp [asyncRefreshStep, h, clearRefreshing, updFlag]
  · intro tm index key cfg token q now
    simp [refreshSingleTokenSyncUnlock, clearRefreshing, updCache]

/-- Witness for C1 (amended): in the post-removal pool `c1tm2` the validation
for position 0 against snapshot A fails, and the async run for A leaves the
cache and exhaustion state untouched. -/
theorem c1_identity_safety_amended_witness :
    asyncRefreshValid c1tm2 0 cfgA = false ∧
    ((asyncRefreshStep c1tm2 0 cfgA .failed 60).tokens = c1tm2.tokens ∧
     (asyncRefreshStep c1tm2 0 cfgA .failed 60).exhausted = c1tm2.exhausted ∧
     (asyncRefreshStep c1tm2 0 cfgA .failed 60).refreshing 0 = false) :=
  ⟨by decide, c1_identity_safety_amended.1 c1tm2 0 cfgA .failed 60 (by decide)⟩

/-! Section: Claim C6 -/

/-- C6 counterexample: a selection-path launch for position 0 is outstanding
(marker set), and a manual launch through `RefreshSingleTokenByIndex` for
the same position goes through without consulting the in-flight marker —
two refreshes for position 0 are then outstanding at once, falsifying
"at most one refresh per position is outstanding at any time" and "a refresh
is launched only when the marker was not already set". -/
theorem c6_inflight_cex :
    (triggerStep { configs := [cfgA], refreshing := fun _ => false,
                   outstanding := fun _ => 0 } 0).outstanding 0 = 1 ∧
    (manualStep (triggerStep { configs := [cfgA], refreshing := fun _ => false,
                               outstanding := fun _ => 0 } 0) 0).outstanding 0 = 2 := by
  refine ⟨by decide, by decide⟩

/-- C6 (amended): for the refreshes launched by the selection path the
claimed discipline holds — the launch tests and sets the marker under the
lock (`triggerStep`), and completion clears it whatever the outcome
(`completeStep`); these steps preserve the invariant that at most one
refresh per position is outstanding and that an outstanding refresh holds
its position's marker.  The marker-less launch paths
(`RefreshSingleTokenByIndex`, `AddConfig`, `RefreshAllTokens`) are excluded:
they violate the discipline, as the counterexample shows. -/
theorem c6_inflight_amended (s : RefreshSys) (k : Nat) (h : RefreshInv s) :
    RefreshInv (triggerStep s k) ∧ RefreshInv (completeStep s k) := by
  constructor
  · unfold triggerStep
    split
    · exact h
    next hr =>
      split
      next hlt =>
        split
        · exact h
        next hdis =>
          intro k'
          obtain ⟨h1, h2⟩ := h k'
          have h0 : s.outstanding k = 0 := by
            obtain ⟨g1, g2⟩ := h k
            rcases Nat.le_one_iff_eq_zero_or_eq_one.mp g1 with h' | h'
            · exact h'
            · exact absurd (g2 h') (by simpa using hr)
          dsimp only
          by_cases hk : k' = k
          · subst hk
            exact ⟨by simp [h0], fun _ => by simp [updFlag]⟩
          · refine ⟨by simp [hk, h1], fun he => ?_⟩
            simp only [hk, if_false] at he
            simpa [updFlag, hk] using h2 he
      · exact h
  · unfold completeStep
    split
    · exact h
    next hnz =>
      intro k'
      obtain ⟨h1, h2⟩ := h k'
      dsimp only
      by_cases hk : k' = k
      · subst hk
        simp only [if_pos rfl, if_true, eq_self_iff_true]
        refine ⟨by omega, fun he => ?_⟩
        exact absurd h1 (by omega)
      · refine ⟨by simp [hk, h1], fun he => ?_⟩
        simp only [hk, if_false] at he
        simpa [updFlag, hk] using h2 he

/-- Witness for C6 (amended): the invariant holds of the empty coordination
state and is preserved by a trigger and a completion for position 0. -/
theorem c6_inflight_amended_witness :
    RefreshInv c6ws ∧ (RefreshInv (triggerStep c6ws 0) ∧ RefreshInv (completeStep c6ws 0)) :=
  have hinv : RefreshInv c6ws := fun k => ⟨by simp [c6ws], fun he => by simp [c6ws] at he⟩
  ⟨hinv, c6_inflight_amended c6ws 0 hinv⟩

/-- C3 counterexample: `RemoveConfig 1` succeeds but does not clear the
in-flight marker of the removed position — `refreshing` is left entirely
untouched (`token_manager.go:1503-1560` never mentions `tm.refreshing`).
This falsifies the claim's conjunct "clears the in-flight marker for the
removed position". -/
theorem c3_remove_cex :
    (c3cextm.RemoveConfig 1).isOk = true ∧
    (removeOrSelf c3cextm 1).refreshing 1 = true := by
  refine ⟨by decide, by decide⟩

/-- C3 (amended): `RemoveConfig index` fails exactly when `index` is outside
`[0, len)`.  On success it removes the record at `index`, re-keys every
cached entry and exhaustion mark whose original position was greater than
`index` down by one with content unchanged (positions below `index` keep
their entries), leaves no entry at or beyond the shortened length, resets
the cursor to zero when it points past the end of the shortened list — and
leaves the in-flight marker map unchanged (the marker of the removed
position is cleared later, by the refresh's own completion handler, not by
`RemoveConfig`). -/
theorem c3_remove_amended (tm : TokenManager) (index : Int) :
    ((tm.RemoveConfig index).isOk = true ↔ 0 ≤ index ∧ index < (tm.configs.length : Int)) ∧
    (∀ tm', tm.RemoveConfig index = .ok tm' →
      tm'.configs = tm.configs.take index.toNat ++ tm.configs.drop (index.toNat + 1) ∧
      tm'.configs.length + 1 = tm.configs.length ∧
      (∀ i : Nat, i < tm'.configs.length →
        tm'.tokens i = (if index.toNat ≤ i then tm.tokens (i + 1) else tm.tokens i) ∧
        tm'.exhausted i = (if index.toNat ≤ i then tm.exhausted (i + 1) else tm.exhausted i)) ∧
      (∀ i : Nat, tm'.configs.length ≤ i → tm'.tokens i = none ∧ tm'.exhausted i = false) ∧
      tm'.currentIndex = (if tm'.configs.length ≤ tm.currentIndex then 0 else tm.currentIndex) ∧
      tm'.refreshing = tm.refreshing) := by
  constructor
  · unfold TokenManager.RemoveConfig
    split
    next hguard =>
      simp only [Except.isOk, Except.toBool]
      constructor
      · intro hfalse; exact absurd hfalse (by simp)
      · intro hrange
        exact (by omega : False).elim
    next hguard =>
      simp only [Except.isOk, Except.toBool]
      push_neg at hguard
      exact ⟨fun _ => ⟨hguard.1, hguard.2⟩, fun _ => by trivial⟩
  · intro tm' h
    unfold TokenManager.RemoveConfig at h
    split at h
    · exact absurd h (by simp)
    next hguard =>
      push_neg at hguard
      have hk : index.toNat < tm.configs.length := by omega
      injection h with h'
      subst h'
      refine ⟨rfl, ?_, ?_, ?_, rfl, rfl⟩
      · simp only [List.length_append, List.length_take, List.length_drop]
        omega
      · intro i hi
        constructor
        · dsimp only
          rw [if_pos hi]
          by_cases hki : index.toNat ≤ i
          · rw [if_pos hki, if_pos hki]
            unfold updCache
            rw [if_neg (by omega : ¬ i + 1 = index.toNat)]
          · rw [if_neg hki, if_neg hki]
            unfold updCache
            rw [if_neg (by omega : ¬ i = index.toNat)]
        · dsimp only
          rw [if_pos hi]
          by_cases hki : index.toNat ≤ i
          · rw [if_pos hki, if_pos hki]
            unfold updFlag
            rw [if_neg (by omega : ¬ i + 1 = index.toNat)]
          · rw [if_neg hki, if_neg hki]
            unfold updFlag
            rw [if_neg (by omega : ¬ i = index.toNat)]
      · intro i hi
        have hi' : (tm.configs.take index.toNat ++ tm.configs.drop (index.toNat + 1)).length ≤ i :=
          hi
        constructor
        · dsimp only
          rw [if_neg (by omega : ¬ i < _)]
        · dsimp only
          rw [if_neg (by omega : ¬ i < _)]

/-- Witness for C3 (amended), realizing the spec's scenario `remove(1)` on a
3-credential pool: the removal succeeds, the former position-2 entry is now
readable at position 1 with identical content, no entry exists at position
2, and the in-flight marker map is unchanged. -/
theorem c3_remove_amended_witness :
    (c3wtm.RemoveConfig 1).isOk = true ∧
    (removeOrSelf c3wtm 1).tokens 1 = some (mkEntry "t2" 3) ∧
    (removeOrSelf c3wtm 1).tokens 2 = none ∧
    (removeOrSelf c3wtm 1).refreshing = c3wtm.refreshing :=
  have happ := (c3_remove_amended c3wtm 1).2 (removeOrSelf c3wtm 1) rfl
  ⟨(c3_remove_amended c3wtm 1).1.mpr (by decide),
   by simpa [c3wtm] using (happ.2.2.1 1 (by decide)).1,
   (happ.2.2.2.1 2 (by decide)).1,
   happ.2.2.2.2.2⟩

/-! Section: Structural lemmas about the selection loop -/

theorem trigger_fst_tokens (tm : TokenManager) (index key : Nat) :
    (triggerAsyncRefreshUnlocked tm index key).1.tokens = tm.tokens := by
  unfold triggerAsyncRefreshUnlocked
  split
  · split <;> rfl
  · rfl

theorem syncUnlock_fst_tokens (tm : TokenManager) (index key : Nat) (cfg : AuthConfig)
    (r : RefreshResult) (now : Int) (ct : CachedToken)
    (h : (refreshSingleTokenSyncUnlock tm index cfg key r now).1 = some ct) :
    (refreshSingleTokenSyncUnlock tm index cfg key r now).2.tokens key = some ct := by
  rcases r with _ | ⟨token, q⟩
  · simp [refreshSingleTokenSyncUnlock] at h
  · simp_all [refreshSingleTokenSyncUnlock, updCache]

theorem selectIter_ret_usable (tm : TokenManager) (now : Int)
    (oracle : Nat → RefreshResult) (key : Nat) (tmr : TokenManager) (l : List Nat)
    (h : selectIter tm now oracle = .ret key tmr l) :
    ∃ ct, tmr.tokens key = some ct ∧ ct.IsUsable now = true := by
  unfold selectIter at h
  split at h
  · simp at h
  next k0 hk0 =>
    dsimp only at h
    split at h
    next cached hc =>
      split at h
      · -- cache entry expired
        split at h
        · -- entry still usable: stale-while-revalidate return
          split at h
          · cases h
            exact ⟨cached, hc, by assumption⟩
          · cases h
            refine ⟨cached, ?_, by assumption⟩
            rw [trigger_fst_tokens]
            exact hc
        · -- entry unusable: synchronous lazy refresh
          split at h
          next hlt =>
            split at h
            · simp at h
            · split at h
              · simp at h
              · split at h
                next refreshed heq =>
                  split at h
                  · cases h
                    exact ⟨refreshed, syncUnlock_fst_tokens _ _ _ _ _ _ _ heq, by assumption⟩
                  · simp at h
                next heq => simp at h
          · simp at h
      · -- cache entry fresh
        split at h
        · cases h
          exact ⟨cached, hc, by assumption⟩
        · simp at h
    next hc =>
      -- no cache entry: synchronous lazy refresh
      split at h
      next hlt =>
        split at h
        · simp at h
        · split at h
          · simp at h
          · split at h
            next refreshed heq =>
              split at h
              · cases h
                exact ⟨refreshed, syncUnlock_fst_tokens _ _ _ _ _ _ _ heq, by assumption⟩
              · simp at h
            next heq => simp at h
      · simp at h

theorem selectLoop_ret_usable (now : Int) (oracle : Nat → RefreshResult) :
    ∀ (fuel : Nat) (tm : TokenManager) (launched : List Nat) (k : Nat),
      (selectLoop now oracle fuel tm launched).selected = some k →
      ∃ ct, (selectLoop now oracle fuel tm launched).tm.tokens k = some ct ∧
        ct.IsUsable now = true := by
  intro fuel
  induction fuel with
  | zero =>
    intro tm launched k h
    simp [selectLoop] at h
  | succ n ih =>
    intro tm launched k h
    rw [selectLoop] at h ⊢
    generalize hit : selectIter tm now oracle = o at h ⊢
    rcases o with ⟨key, tmr, l⟩ | ⟨tmr, l⟩ <;> dsimp only at h ⊢
    · obtain rfl := Option.some.inj h
      exact selectIter_ret_usable tm now oracle _ _ _ hit
    · exact ih _ _ k h

theorem select_ret_usable (tm : TokenManager) (now : Int)
    (oracle : Nat → RefreshResult) (k : Nat)
    (h : (selectBestTokenUnlocked tm now oracle).selected = some k) :
    ∃ ct, (selectBestTokenUnlocked tm now oracle).tm.tokens k = some ct ∧
      ct.IsUsable now = true := by
  unfold selectBestTokenUnlocked at h ⊢
  by_cases hz : tm.configOrder.length = 0
  · rw [if_pos hz] at h
    simp at h
  · rw [if_neg hz] at h ⊢
    exact selectLoop_ret_usable now oracle _ tm [] k h

/-- C2 counterexample: on a pool of N = 2 always-usable credentials, two
consecutive `acquire()` calls both select position 0 — the cursor does not
advance past a usable position, so the 2 calls do not visit the 2 positions
exactly once each.  This falsifies the round-robin property. -/
theorem c2_round_robin_cex :
    (selectBestTokenUnlocked c2tm 10 oracleNone).selected = some 0 ∧
    (getBestToken c2tm 10 oracleNone).1 = some (mkEntry "tok-A" 5).token ∧
    (selectBestTokenUnlocked c2tmAfter 10 oracleNone).selected = some 0 ∧
    (getBestToken c2tmAfter 10 oracleNone).1 = some (mkEntry "tok-A" 5).token := by
  refine ⟨by decide, by decide, by decide, by decide⟩

/-- C2 (amended): selection always starts from the cursor left by the
previous call, but a usable position pins the cursor: when the entry at the
cursor is fresh and usable, `acquire()` returns that entry's token and
leaves the cursor unchanged.  Rotation happens only as positions become
unusable (the cursor advances past exhausted or refresh-failed positions),
so N consecutive calls on N always-usable credentials dispense the cursor's
credential N times rather than visiting all N positions. -/
theorem c2_selection_from_cursor (tm : TokenManager) (now : Int)
    (oracle : Nat → RefreshResult) (k : Nat) (ct : CachedToken)
    (hk : tm.configOrder.get? tm.currentIndex = some k)
    (hct : tm.tokens k = some ct)
    (hfresh : now - ct.cachedAt ≤ tm.ttl)
    (husable : ct.IsUsable now = true) :
    (selectBestTokenUnlocked tm now oracle).selected = some k ∧
    (getBestToken tm now oracle).1 = some ct.token ∧
    (getBestToken tm now oracle).2.currentIndex = tm.currentIndex := by
  have hiter : selectIter tm now oracle = .ret k tm [] := by
    unfold selectIter
    rw [hk]
    dsimp only
    rw [hct]
    dsimp only
    rw [if_neg (by omega : ¬ now - ct.cachedAt > tm.ttl), if_pos husable]
  have hlen : tm.currentIndex < tm.configOrder.length := by
    by_contra hcon
    rw [List.get?_eq_none.mpr (le_of_not_lt hcon)] at hk
    exact Option.noConfusion hk
  have hsel : selectBestTokenUnlocked tm now oracle = ⟨some k, tm, []⟩ := by
    unfold selectBestTokenUnlocked
    rw [if_neg (by omega : ¬ tm.configOrder.length = 0)]
    obtain ⟨m, hm⟩ : ∃ m, tm.configOrder.length = m + 1 :=
      ⟨tm.configOrder.length - 1, by omega⟩
    rw [hm, selectLoop, hiter]
    rfl
  refine ⟨by rw [hsel], ?_, ?_⟩
  · unfold getBestToken
    dsimp only
    rw [hsel]
    dsimp only
    rw [hct]
    rfl
  · unfold getBestToken
    dsimp only
    rw [hsel]
    dsimp only
    unfold dispense
    rw [hct]

/-- Witness for C2 (amended): on the concrete always-usable pool `c2tm` the
acquire returns the cursor's token and leaves the cursor at 0. -/
theorem c2_selection_from_cursor_witness :
    (selectBestTokenUnlocked c2tm 10 oracleNone).selected = some 0 ∧
    (getBestToken c2tm 10 oracleNone).1 = some (mkEntry "tok-A" 5).token ∧
    (getBestToken c2tm 10 oracleNone).2.currentIndex = c2tm.currentIndex :=
  c2_selection_from_cursor c2tm 10 oracleNone 0 (mkEntry "tok-A" 5)
    (by decide) (by decide) (by decide) (by decide)

/-- C4 counterexample: dispensing an entry with fractional availability 1/2
leaves `available = -1/2`: the decrement is guarded by `available > 0` but
not floored at 0, so the invariant `remaining-available ≥ 0` fails and the
result is not `max 0 (1/2 - 1) = 0`. -/
theorem c4_available_floor_cex :
    ((getBestToken c4tm 10 oracleNone).2.tokens 0).map (fun ct => ct.available) =
      some (mkRat (-1) 2) ∧
    ¬ (0 : Rat) ≤ mkRat (-1) 2 := by
  refine ⟨by decide, by decide⟩

/-- C4 (amended): selection returns only entries that are usable at
dispensing time (unexpired with `available > 0`), so an entry with
`available ≤ 0` or past expiry is not dispensed until a refresh overwrites
it; dispensing sets `available` to `available - 1` when `available > 0` and
leaves it unchanged otherwise.  The result is non-negative when the previous
value was an integer (or at least 1), but a fractional value in (0,1) goes
negative — the decrement is not floored at 0. -/
theorem c4_dispense_amended (tm : TokenManager) (now : Int)
    (oracle : Nat → RefreshResult) (k : Nat) (ct : CachedToken)
    (hsel : (selectBestTokenUnlocked tm now oracle).selected = some k)
    (hct : (selectBestTokenUnlocked tm now oracle).tm.tokens k = some ct) :
    ct.IsUsable now = true ∧
    ((getBestToken tm now oracle).2.tokens k).map (fun c => c.available) =
      some (if ct.available > 0 then ct.available - 1 else ct.available) := by
  obtain ⟨ct', hct', husable⟩ := select_ret_usable tm now oracle k hsel
  obtain rfl : ct' = ct := by
    rw [hct] at hct'
    exact (Option.some.inj hct').symm
  refine ⟨husable, ?_⟩
  unfold getBestToken
  dsimp only
  rw [hsel]
  dsimp only
  unfold dispense
  rw [hct]
  simp [updCache]

/-- Witness for C4 (amended): dispensing the usable entry of `c2tm` at
position 0 yields availability 5 − 1. -/
theorem c4_dispense_amended_witness :
    (mkEntry "tok-A" 5).IsUsable 10 = true ∧
    ((getBestToken c2tm 10 oracleNone).2.tokens 0).map (fun c => c.available) =
      some (if (mkEntry "tok-A" 5).available > 0 then (mkEntry "tok-A" 5).available - 1
            else (mkEntry "tok-A" 5).available) :=
  c4_dispense_amended c2tm 10 oracleNone 0 (mkEntry "tok-A" 5) (by decide) (by decide)

/-- C5 counterexample: a disabled credential's cached token IS dispensed —
`acquire()` reads the cache entry before ever consulting the disabled flag
(`token_manager.go:1077`) and returns a fresh usable entry regardless of the
flag (`token_manager.go:1113-1121`). -/
theorem c5_disabled_cex :
    cfgADisabled.disabled = true ∧
    c5tm.configs = [cfgADisabled] ∧
    (getBestToken c5tm 10 oracleNone).1 = some (mkEntry "tok-D" 3).token := by
  refine ⟨by decide, by decide, by decide⟩

theorem trigger_disabled (tm : TokenManager) (key : Nat)
    (hlt : tm.currentIndex < tm.configs.length)
    (hd : (tm.configs.get ⟨tm.currentIndex, hlt⟩).disabled = true) :
    triggerAsyncRefreshUnlocked tm tm.currentIndex key = (tm, []) := by
  unfold triggerAsyncRefreshUnlocked
  rw [dif_pos hlt, if_pos hd]

/-- C5 (amended): when the config at the cursor is disabled, a selection
iteration never launches or performs a refresh for it — the cache and the
in-flight markers are left untouched and no background refresh is spawned —
but the position is not skipped outright: if the iteration returns a token
for some key, that token comes from an already-cached entry that is usable
now. -/
theorem c5_disabled_amended (tm : TokenManager) (now : Int)
    (oracle : Nat → RefreshResult)
    (hlt : tm.currentIndex < tm.configs.length)
    (hd : (tm.configs.get ⟨tm.currentIndex, hlt⟩).disabled = true) :
    (selectIter tm now oracle).outTm.tokens = tm.tokens ∧
    (selectIter tm now oracle).outTm.refreshing = tm.refreshing ∧
    (selectIter tm now oracle).outLaunched = [] ∧
    (∀ key, (selectIter tm now oracle).retKey = some key →
      (tm.tokens key).map (fun ct => ct.IsUsable now) = some true) := by
  rcases hk : tm.configOrder.get? tm.currentIndex with _ | k0
  · have heq : selectIter tm now oracle = .next (advanceCursor tm) [] := by
      unfold selectIter
      rw [hk]
    rw [heq]
    exact ⟨rfl, rfl, rfl, fun key h => Option.noConfusion h⟩
  · rcases hc : tm.tokens k0 with _ | cached
    · have heq : selectIter tm now oracle = .next (exhaustAdvance tm k0) [] := by
        unfold selectIter
        rw [hk]
        dsimp only
        rw [hc]
        dsimp only
        rw [dif_pos hlt, if_pos hd]
      rw [heq]
      exact ⟨rfl, rfl, rfl, fun key h => Option.noConfusion h⟩
    · by_cases hexp : now - cached.cachedAt > tm.ttl
      · by_cases hu : cached.IsUsable now = true
        · by_cases hr : tm.refreshing k0 = true
          · have heq : selectIter tm now oracle = .ret k0 tm [] := by
              unfold selectIter
              rw [hk]
              dsimp only
              rw [hc]
              dsimp only
              rw [if_pos hexp, if_pos hu, if_pos hr]
            rw [heq]
            refine ⟨rfl, rfl, rfl, fun key h => ?_⟩
            obtain rfl : k0 = key := Option.some.inj h
            rw [hc]
            simpa using hu
          · have heq : selectIter tm now oracle = .ret k0 tm [] := by
              unfold selectIter
              rw [hk]
              dsimp only
              rw [hc]
              dsimp only
              rw [if_pos hexp, if_pos hu, if_neg (by simp [hr]),
                trigger_disabled tm k0 hlt hd]
            rw [heq]
            refine ⟨rfl, rfl, rfl, fun key h => ?_⟩
            obtain rfl : k0 = key := Option.some.inj h
            rw [hc]
            simpa using hu
        · have heq : selectIter tm now oracle = .next (exhaustAdvance tm k0) [] := by
            unfold selectIter
            rw [hk]
            dsimp only
            rw [hc]
            dsimp only
            rw [if_pos hexp, if_neg (by simp [hu]), dif_pos hlt, if_pos hd]
          rw [heq]
          exact ⟨rfl, rfl, rfl, fun key h => Option.noConfusion h⟩
      · by_cases hu : cached.IsUsable now = true
        · have heq : selectIter tm now oracle = .ret k0 tm [] := by
            unfold selectIter
            rw [hk]
            dsimp only
            rw [hc]
            dsimp only
            rw [if_neg hexp, if_pos hu]
          rw [heq]
          refine ⟨rfl, rfl, rfl, fun key h => ?_⟩
          obtain rfl : k0 = key := Option.some.inj h
          rw [hc]
          simpa using hu
        · have heq : selectIter tm now oracle = .next (exhaustAdvance tm k0) [] := by
            unfold selectIter
            rw [hk]
            dsimp only
            rw [hc]
            dsimp only
            rw [if_neg hexp, if_neg (by simp [hu])]
          rw [heq]
          exact ⟨rfl, rfl, rfl, fun key h => Option.noConfusion h⟩

/-- Witness for C5 (amended): on `c5tm` (disabled config, fresh usable cache
entry) the iteration changes no cache or marker state, launches nothing, and
the entry it returns for position 0 was already cached and usable. -/
theorem c5_disabled_amended_witness :
    (selectIter c5tm 10 oracleNone).outTm.tokens = c5tm.tokens ∧
    (selectIter c5tm 10 oracleNone).outTm.refreshing = c5tm.refreshing ∧
    (selectIter c5tm 10 oracleNone).outLaunched = [] ∧
    (c5tm.tokens 0).map (fun ct => ct.IsUsable 10) = some true :=
  have happ := c5_disabled_amended c5tm 10 oracleNone (by decide) (by decide)
  ⟨happ.1, happ.2.1, happ.2.2.1, happ.2.2.2 0 (by decide)⟩

/-! Section: Claim C8 -/

/-- C8: for adds and removals through the facade, when persisting the
durable configuration fails after the in-memory pool was already mutated,
the facade's config list and the pool manager are restored to the
pre-mutation configuration contents (the manager is rebuilt from the old
configs) before the error is returned. -/
theorem c8_rollback (as : AuthService) (cfg : AuthConfig) (index : Int)
    (saveOk : List AuthConfig → Bool) (ttl : Int) :
    (cfg.refreshToken ≠ "" →
     ¬((normalizeAuthType cfg).authType = AuthMethodIdC ∧
        ((normalizeAuthType cfg).clientID = "" ∨ (normalizeAuthType cfg).clientSecret = "")) →
     saveOk (as.configs ++ [normalizeAuthType cfg]) = false →
     (as.AddConfig cfg saveOk ttl).1.configs = as.configs ∧
     (as.AddConfig cfg saveOk ttl).1.tokenManager.configs = as.configs ∧
     (as.AddConfig cfg saveOk ttl).2.isSome = true) ∧
    (0 ≤ index → index < (as.configs.length : Int) →
     as.tokenManager.configs.length = as.configs.length →
     saveOk (as.configs.take index.toNat ++ as.configs.drop (index.toNat + 1)) = false →
     (as.RemoveConfig index saveOk ttl).1.configs = as.configs ∧
     (as.RemoveConfig index saveOk ttl).1.tokenManager.configs = as.configs ∧
     (as.RemoveConfig index saveOk ttl).2.isSome = true) := by
  constructor
  · intro h1 h2 h3
    unfold AuthService.AddConfig
    rw [if_neg h1]
    dsimp only
    rw [if_neg h2, if_neg (by simp [h3])]
    exact ⟨rfl, rfl, rfl⟩
  · intro h1 h2 halign h3
    unfold AuthService.RemoveConfig
    rw [if_neg (by omega : ¬(index < 0 ∨ (as.configs.length : Int) ≤ index))]
    dsimp only
    rcases hrm : as.tokenManager.RemoveConfig index with e | tmr
    · exfalso
      unfold TokenManager.RemoveConfig at hrm
      rw [if_neg (by rw [halign]; omega :
        ¬(index < 0 ∨ (as.tokenManager.configs.length : Int) ≤ index))] at hrm
      exact Except.noConfusion hrm
    · dsimp only
      rw [if_neg (by simp [h3])]
      exact ⟨rfl, rfl, rfl⟩

/-- Witness for C8: with persistence failing, adding `cfgB` to and removing
position 0 from `c8as` both roll the in-memory state back to `[cfgA]` and
surface an error. -/
theorem c8_rollback_witness :
    ((c8as.AddConfig cfgB saveFail 300).1.configs = c8as.configs ∧
     (c8as.AddConfig cfgB saveFail 300).1.tokenManager.configs = c8as.configs ∧
     (c8as.AddConfig cfgB saveFail 300).2.isSome = true) ∧
    ((c8as.RemoveConfig 0 saveFail 300).1.configs = c8as.configs ∧
     (c8as.RemoveConfig 0 saveFail 300).1.tokenManager.configs = c8as.configs ∧
     (c8as.RemoveConfig 0 saveFail 300).2.isSome = true) :=
  ⟨(c8_rollback c8as cfgB 0 saveFail 300).1 (by decide) (by decide) (by decide),
   (c8_rollback c8as cfgB 0 saveFail 300).2 (by decide) (by decide) (by decide) (by decide)⟩

end Kiro
